import Mathlib

/-!
Verification of the OM-Test log-evaluation pipeline (`src/eval_om.py`,
`src/app.py`) against its specification.

The Python program is shallowly embedded below.  JSON records become
structures whose fields are `Option`-valued where the code distinguishes
key presence (`d.get(k)` versus `d[k]`); dictionaries become association
lists with overwrite semantics; the external LLM judge call is abstracted
as an oracle describing the outcome of the single network request; Python
exceptions become `Except String` with descriptive message strings.
-/

namespace EvalOM

/-- Routing log record (a parsed JSON object from the routing log).
Every field is `Option`-valued: `none` means the key is absent from the
JSON object (the code reads all of them with `dict.get` defaults, except
`orchestrator_request_id` which is indexed directly when building the
routing lookup at line 149 of `eval_om.py`). -/
structure RoutingRecord where
  orchestrator_request_id : Option String
  question : Option String
  selected_sources : Option (List String)
  decision : Option String
  reasoning : Option String
  model : Option String
deriving DecidableEq

/-- Response log record (a parsed JSON object from the response log).
`previous_response_id = none` models the key being absent entirely (line
170 indexes it directly, so absence raises `KeyError`); `some ""` models a
present but falsy value (empty string or JSON null, which the code only
ever inspects for truthiness). The other fields are read with `.get`
defaults, so `none` models absent-or-null. -/
structure ResponseRecord where
  response_id : Option String
  previous_response_id : Option String
  orchestrator_request_id : Option String
  assistant_response : Option String
deriving DecidableEq

/-- One row of the ground-truth table (`single_turn.csv`), as the strings
pandas yields for the three columns. -/
structure CsvRow where
  question : String
  answers : String
  source_name : String
deriving DecidableEq

/-- Value stored in the ground-truth mapping for one question. -/
structure GTEntry where
  answer : String
  source_name : String
deriving DecidableEq

/-- The ground-truth mapping built by `load_ground_truth`. -/
abbrev GroundTruth := String → Option GTEntry

/-- The result of the single network request made by `judge_with_llm`:
the call can raise an exception, return a body that is not valid JSON
(`json.loads` raises), or succeed with the two criteria extracted by name
(missing keys become `none`) together with the two usage counters. -/
inductive JudgeCallOutcome where
  | throws
  | invalidJSON
  | ok (correctness relevance : Option Int) (usage_in usage_out : Nat)
deriving DecidableEq

/-- Deterministic abstraction of the external judge service: the outcome
of the request for a given (question, reference, hypothesis) triple. -/
abbrev JudgeOracle := String → String → String → JudgeCallOutcome

/-- The dictionary produced by `judge_with_llm` / `empty_judge_scores`:
two criteria scores plus the two token-usage counters. -/
structure JudgeScores where
  judge_correctness : Option Int
  judge_relevance : Option Int
  judge_usage_input : Option Nat
  judge_usage_output : Option Nat
deriving DecidableEq

/-- One output row of `evaluate_logs` (the `result` dict of lines
200-218 of `eval_om.py`). -/
structure EvaluationResult where
  response_id : String
  conversation_id : Int
  turn : Nat
  question : String
  reference_answer : String
  generated_answer : String
  error : String
  routing_correct : Option Bool
  expected_sources : String
  selected_sources : String
  routing_decision : String
  routing_reasoning : String
  routing_model : String
  judge_correctness : Option Int
  judge_relevance : Option Int
  judge_usage_input : Option Nat
  judge_usage_output : Option Nat
deriving DecidableEq

/-- The webhook payload assembled by `run_eval_job` in `src/app.py`
(the fields relevant to the claims). -/
structure WebhookPayload where
  status : String
  result_file : Option String
  total_items : Nat
  error : Option String
deriving DecidableEq

/-- Model of the Python string method `strip()` (no arguments): remove
leading and trailing whitespace. -/
def pyStrip (s : String) : String :=
  ⟨((s.data.dropWhile Char.isWhitespace).reverse.dropWhile Char.isWhitespace).reverse⟩

/-- Message of the `KeyError` raised at line 170 of `eval_om.py` when a
response record lacks the `previous_response_id` key. -/
def keyErrorPrev : String := "KeyError: previous_response_id"

/-- Message of the `KeyError` raised at line 149 of `eval_om.py` when a
routing record lacks the `orchestrator_request_id` key. -/
def keyErrorOrch : String := "KeyError: orchestrator_request_id"

/-- Message of the `AttributeError` raised at line 176 of `eval_om.py`
when `routing` is `None` and `routing.get` is called. -/
def attrErrorNoneGet : String := "AttributeError: NoneType object has no attribute get"

/-- Message of the `UnboundLocalError` raised at line 174 of
`eval_om.py` when `turn += 1` runs before any assignment to `turn`. -/
def unboundLocalTurn : String := "UnboundLocalError: local variable turn referenced before assignment"

/-- Body of the loop of `load_jsonl` (lines 62-64): skip blank lines,
parse each remaining line in order, aborting at the first parse failure
exactly as `json.loads` raising does. -/
def parse_lines {α : Type} (parse : String → Except String α) : List String → Except String (List α)
  | [] => .ok []
  | line :: rest =>
    if pyStrip line = "" then parse_lines parse rest
    else
      match parse line with
      | .error m => .error m
      | .ok v =>
        match parse_lines parse rest with
        | .error m => .error m
        | .ok vs => .ok (v :: vs)

/-- Model of `load_jsonl` (lines 54-65): a missing file (`none`) yields
an empty list, not an error; otherwise each non-blank line is parsed by
`parse` (the model of `json.loads` for the record type at hand),
fail-fast. -/
def load_jsonl {α : Type} (parse : String → Except String α) (file : Option (List String)) :
    Except String (List α) :=
  match file with
  | none => .ok []
  | some lines => parse_lines parse lines

/-- Body of the row loop of `load_ground_truth` (lines 78-87): trim the
three fields and, when the trimmed question is non-empty, overwrite the
mapping at that question (Python dict assignment). -/
def gtInsertRow (gt : GroundTruth) (row : CsvRow) : GroundTruth :=
  let q := pyStrip row.question
  if q ≠ "" then
    fun k => if k = q then some ⟨pyStrip row.answers, pyStrip row.source_name⟩ else gt k
  else gt

/-- Model of `load_ground_truth` (lines 68-89): a missing file yields the
empty mapping; otherwise rows are folded in table order, each row with a
non-empty trimmed question overwriting the entry for that question
(last row wins). -/
def load_ground_truth (file : Option (List CsvRow)) : GroundTruth :=
  match file with
  | none => fun _ => none
  | some rows => rows.foldl gtInsertRow (fun _ => none)

/-- Model of `empty_judge_scores` (lines 92-99): all four fields absent. -/
def empty_judge_scores : JudgeScores := ⟨none, none, none, none⟩

/-- Model of `judge_with_llm` (lines 102-138): with the feature flag
disabled it returns the placeholder without any call; otherwise the one
network request either throws / returns invalid JSON (both caught by the
bare `except`, yielding the placeholder) or succeeds, in which case each
criterion is extracted by name (`raw_scores.get`, absent keys become
`none`) and the usage counters are filled in. -/
def judge_with_llm (enabled : Bool) (oracle : JudgeOracle)
    (question reference hypothesis : String) : JudgeScores :=
  if enabled = false then empty_judge_scores
  else
    match oracle question reference hypothesis with
    | .throws => empty_judge_scores
    | .invalidJSON => empty_judge_scores
    | .ok c r i o => ⟨c, r, some i, some o⟩

/-- Model of lines 186-198 of `evaluate_logs`: the judge is invoked only
when both the reference and the generated answer are non-empty; otherwise
the placeholder is used and the row error is set to the fixed message
exactly when the reference answer is empty. Returns (scores, error). -/
def judgeForRow (enabled : Bool) (oracle : JudgeOracle)
    (question reference generated : String) : JudgeScores × Option String :=
  if reference ≠ "" ∧ generated ≠ "" then
    (judge_with_llm enabled oracle question reference generated, none)
  else
    (empty_judge_scores, if reference = "" then some "No ground truth available" else none)

/-- Python dict insertion with overwrite: replace the binding in place if
the key is present, else append at the end. -/
def dictInsert : List (String × RoutingRecord) → String → RoutingRecord →
    List (String × RoutingRecord)
  | [], k, v => [(k, v)]
  | (k0, v0) :: rest, k, v =>
    if k0 = k then (k0, v) :: rest else (k0, v0) :: dictInsert rest k v

/-- Model of line 149, `routing_lookup = {r[...]: r for r in routing_logs}`:
a record lacking the key raises `KeyError`; duplicate keys overwrite
(last record wins). -/
def build_routing_lookup : List RoutingRecord → Except String (List (String × RoutingRecord))
  | [] => .ok []
  | r :: rest =>
    match r.orchestrator_request_id with
    | none => .error keyErrorOrch
    | some k =>
      match build_routing_lookup rest with
      | .error m => .error m
      | .ok lk => .ok (dictInsert lk k r)

/-- Model of `routing_lookup.get(orch_id)`: `orch_id` may be `None`
(absent key in the response record), which matches nothing. -/
def lookupRouting (lk : List (String × RoutingRecord)) : Option String → Option RoutingRecord
  | none => none
  | some k => lk.lookup k

/-- One element of a conversation group: the response record paired with
its (possibly unresolved) routing record, as built at lines 159-162. -/
structure TurnData where
  response : ResponseRecord
  routing : Option RoutingRecord
deriving DecidableEq

/-- The pairing performed at lines 159-162 for a single response record. -/
def mkEntry (lk : List (String × RoutingRecord)) (r : ResponseRecord) : TurnData :=
  ⟨r, lookupRouting lk r.orchestrator_request_id⟩

/-- Adding one entry to the insertion-ordered dict of conversation groups
(lines 156-162): append to the existing group for the key if present,
else append a fresh group at the end. -/
def addEntry : List (Option String × List TurnData) → Option String → TurnData →
    List (Option String × List TurnData)
  | [], k, e => [(k, [e])]
  | (k0, l) :: gs, k, e =>
    if k0 = k then (k0, l ++ [e]) :: gs else (k0, l) :: addEntry gs k e

/-- Model of the grouping loop (lines 151-162): fold the response log in
order into the insertion-ordered dict of groups keyed by
`resp.get("response_id")`. -/
def groupConvs (lk : List (String × RoutingRecord)) (logs : List ResponseRecord) :
    List (Option String × List TurnData) :=
  logs.foldl (fun convs r => addEntry convs r.response_id (mkEntry lk r)) []

/-- Concatenation of the groups in insertion order: the exact order in
which the nested loops of lines 166-167 visit the entries. -/
def flattenGroups : List (Option String × List TurnData) → List TurnData
  | [] => []
  | (_, l) :: gs => l ++ flattenGroups gs

/-- The sequence of (response, routing) entries that the emission loop of
`evaluate_logs` processes, in processing order, for given parsed logs
(error if building the routing lookup raises). -/
def processed_entries (routing_logs : List RoutingRecord) (response_logs : List ResponseRecord) :
    Except String (List TurnData) :=
  match build_routing_lookup routing_logs with
  | .error m => .error m
  | .ok lk => .ok (flattenGroups (groupConvs lk response_logs))

/-- Construction of one `result` row (lines 175-218) once the routing
record is known to be present, with the conversation index and turn
number already updated for this entry. -/
def mkRowOk (gt : GroundTruth) (enabled : Bool) (oracle : JudgeOracle)
    (conv : Int) (turn : Nat) (resp : ResponseRecord) (routing : RoutingRecord) :
    EvaluationResult :=
  let user_query := routing.question.getD ""
  let generated := resp.assistant_response.getD ""
  let gte := gt user_query
  let reference := (gte.map GTEntry.answer).getD ""
  let expected := (gte.map GTEntry.source_name).getD ""
  let selected := routing.selected_sources.getD []
  let judged := judgeForRow enabled oracle user_query reference generated
  { response_id := resp.response_id.getD ""
    conversation_id := conv
    turn := turn
    question := user_query
    reference_answer := reference
    generated_answer := generated
    error := judged.2.getD ""
    routing_correct := if expected ≠ "" then some (selected.contains expected) else none
    expected_sources := expected
    selected_sources := String.intercalate "," selected
    routing_decision := routing.decision.getD ""
    routing_reasoning := routing.reasoning.getD ""
    routing_model := routing.model.getD ""
    judge_correctness := judged.1.judge_correctness
    judge_relevance := judged.1.judge_relevance
    judge_usage_input := judged.1.judge_usage_input
    judge_usage_output := judged.1.judge_usage_output }

/-- Row construction including the `AttributeError` of line 176: when the
entry's routing record is `None`, `routing.get("question", "")` raises. -/
def mkRow (gt : GroundTruth) (enabled : Bool) (oracle : JudgeOracle)
    (conv : Int) (turn : Nat) (e : TurnData) : Except String EvaluationResult :=
  match e.routing with
  | none => .error attrErrorNoneGet
  | some rt => .ok (mkRowOk gt enabled oracle conv turn e.response rt)

/-- Lines 170-174 of `evaluate_logs`: update the conversation index and
the `turn` variable for one entry whose `previous_response_id` value is
`v`. A falsy value starts a new conversation (index + 1, turn reset to
1); otherwise `turn += 1` runs, raising `UnboundLocalError` when `turn`
(`none` here) has never been assigned. -/
def stepState (conv : Int) (turnState : Option Nat) (v : String) : Except String (Int × Nat) :=
  if v = "" then .ok (conv + 1, 1)
  else
    match turnState with
    | none => .error unboundLocalTurn
    | some t => .ok (conv, t + 1)

/-- The emission loop of `evaluate_logs` (lines 164-220) over the
flattened entry sequence. State: `conv` is the running conversation
index (starts at -1); the `Option Nat` is `none` while the local
variable `turn` is still unassigned and `some t` once it holds `t`.
Line 170 indexes `previous_response_id` directly, raising `KeyError`
when the key is absent. -/
def runLoop (gt : GroundTruth) (enabled : Bool) (oracle : JudgeOracle) :
    Int → Option Nat → List TurnData → Except String (List EvaluationResult)
  | _, _, [] => .ok []
  | conv, turnState, e :: es =>
    match e.response.previous_response_id with
    | none => .error keyErrorPrev
    | some v =>
      match stepState conv turnState v with
      | .error m => .error m
      | .ok (conv2, turn2) =>
        match mkRow gt enabled oracle conv2 turn2 e with
        | .error m => .error m
        | .ok row =>
          match runLoop gt enabled oracle conv2 (some turn2) es with
          | .error m => .error m
          | .ok rows => .ok (row :: rows)

/-- Model of `evaluate_logs` (lines 141-242). The two file loads are
passed as the results of the corresponding `load_jsonl` calls (lines
146-147). Returns `.ok none` for the early bare `return` when the
response-identifier list is empty, `.ok (some results)` for a normal
return, and `.error` for a propagating exception. -/
def evaluate_logs (routing_load : Except String (List RoutingRecord))
    (response_load : Except String (List ResponseRecord))
    (ground_truth : GroundTruth) (response_ids : List String)
    (enabled : Bool) (oracle : JudgeOracle) : Except String (Option (List EvaluationResult)) :=
  if response_ids.length = 0 then .ok none
  else
    match routing_load with
    | .error m => .error m
    | .ok routing_logs =>
      match response_load with
      | .error m => .error m
      | .ok response_logs =>
        match build_routing_lookup routing_logs with
        | .error m => .error m
        | .ok lk =>
          match runLoop ground_truth enabled oracle (-1) none
              (flattenGroups (groupConvs lk response_logs)) with
          | .error m => .error m
          | .ok rows => .ok (some rows)

/-- Whether `evaluate_logs` writes the CSV report (lines 222-240): a file
is written exactly when the run returns normally with a non-empty result
list. -/
def writes_report (out : Except String (Option (List EvaluationResult))) : Bool :=
  match out with
  | .ok (some rows) => !rows.isEmpty
  | _ => false

/-- Model of `eval_om` (lines 247-254): early bare `return` when the
identifier list is empty; otherwise it builds the ground truth, calls
`evaluate_logs`, discards its value, and falls off the end of the
function — so on success it always returns `None` (`.ok none`), while
exceptions from the pipeline propagate. -/
def eval_om (response_ids : List String) (gt_file : Option (List CsvRow))
    (routing_load : Except String (List RoutingRecord))
    (response_load : Except String (List ResponseRecord))
    (enabled : Bool) (oracle : JudgeOracle) : Except String (Option (List EvaluationResult)) :=
  if response_ids.length = 0 then .ok none
  else
    match evaluate_logs routing_load response_load (load_ground_truth gt_file)
        response_ids enabled oracle with
    | .error m => .error m
    | .ok _ => .ok none

/-- Model of `run_eval_job` in `src/app.py` (lines 52-88): given the
outcome of the `eval_om` call, build the webhook payload. An exception
gives status `failed` with the exception message and no result file;
otherwise status `success`, the day-stamped file name, and `total_items`
counted from the returned value via Python truthiness (`None` and the
empty list both give 0). -/
def run_eval_job (today : String) (outcome : Except String (Option (List EvaluationResult))) :
    WebhookPayload :=
  match outcome with
  | .error m => ⟨"failed", none, 0, some m⟩
  | .ok r => ⟨"success", some ("eval_" ++ today ++ ".csv"), (r.getD []).length, none⟩

/-- Conversation index in effect just before processing entry `i`: `c`
(the initial index) for `i = 0`, else the conversation index recorded in
row `i - 1`. -/
def prevConvAt (c : Int) (rows : List EvaluationResult) : Nat → Int
  | 0 => c
  | i + 1 =>
    match rows[i]? with
    | some row => row.conversation_id
    | none => c

/-- Value of the `turn` variable just before processing entry `i`:
the initial state for `i = 0`, else the turn recorded in row `i - 1`. -/
def prevTurnAt (t : Option Nat) (rows : List EvaluationResult) : Nat → Option Nat
  | 0 => t
  | i + 1 =>
    match rows[i]? with
    | some row => some row.turn
    | none => t

/-- A result row with the four judge fields blanked, used to compare runs
of the pipeline under different judge-call outcomes. -/
def eraseJudge (r : EvaluationResult) : EvaluationResult :=
  { r with judge_correctness := none, judge_relevance := none,
           judge_usage_input := none, judge_usage_output := none }

/-- Concrete routing record used by witnesses and counterexamples. -/
def wRouting : RoutingRecord :=
  ⟨some "r1", some "Q1", some ["docA"], some "d", some "rr", some "m"⟩

/-- First-turn response record of the witness scenario. -/
def wResp1 : ResponseRecord := ⟨some "resp1", some "", some "r1", some "A1"⟩

/-- Second-turn response record of the witness scenario (non-empty
`previous_response_id`). -/
def wResp2 : ResponseRecord := ⟨some "resp2", some "resp1", some "r1", some "A2"⟩

/-- Ground-truth table row of the witness scenario. -/
def wCsvRow : CsvRow := ⟨"Q1", "A1", "docA"⟩

/-- Ground truth of the witness scenario. -/
def wGT : GroundTruth := load_ground_truth (some [wCsvRow])

/-- Judge oracle whose single request always raises. -/
def wOracle : JudgeOracle := fun _ _ _ => .throws

/-- The row `evaluate_logs` emits for `wResp1` in the witness scenario
(judge disabled). -/
def wRow1 : EvaluationResult :=
  ⟨"resp1", 0, 1, "Q1", "A1", "A1", "", some true, "docA", "docA", "d", "rr", "m",
    none, none, none, none⟩

/-- The row `evaluate_logs` emits for `wResp2` in the witness scenario
(judge disabled). -/
def wRow2 : EvaluationResult :=
  ⟨"resp2", 0, 2, "Q1", "A1", "A2", "", some true, "docA", "docA", "d", "rr", "m",
    none, none, none, none⟩

/-- Processed entry for `wResp1`. -/
def wEntry1 : TurnData := ⟨wResp1, some wRouting⟩

/-- Processed entry for `wResp2`. -/
def wEntry2 : TurnData := ⟨wResp2, some wRouting⟩

/-- Response record whose `orchestrator_request_id` resolves to nothing
in the routing lookup (counterexample input). -/
def cxRespNull : ResponseRecord := ⟨some "a", some "", some "rX", some "hi"⟩

/-- Response record that opens the log with a non-empty
`previous_response_id` (counterexample input). -/
def cxRespChain : ResponseRecord := ⟨some "a", some "resp0", some "r1", some "hi"⟩

/-- Two response records sharing the same `response_id` (counterexample
input for uniqueness). -/
def cxDup1 : ResponseRecord := ⟨some "a", some "", some "r1", some "A1"⟩

/-- Second record with the duplicated `response_id`. -/
def cxDup2 : ResponseRecord := ⟨some "a", some "", some "r1", some "A2"⟩

/-- Row emitted for `cxDup1` (empty ground truth, judge disabled). -/
def cxDupRow1 : EvaluationResult :=
  ⟨"a", 0, 1, "Q1", "", "A1", "No ground truth available", none, "", "docA", "d", "rr", "m",
    none, none, none, none⟩

/-- Row emitted for `cxDup2` (empty ground truth, judge disabled). -/
def cxDupRow2 : EvaluationResult :=
  ⟨"a", 1, 1, "Q1", "", "A2", "No ground truth available", none, "", "docA", "d", "rr", "m",
    none, none, none, none⟩

/-- Response record lacking the `previous_response_id` key entirely. -/
def cxRespNoKey : ResponseRecord := ⟨some "b", none, some "r1", some "hi"⟩

/-- A line parser that always fails, modelling `json.loads` on a
malformed line (witness input). -/
def badParse : String → Except String ResponseRecord := fun _ => .error "bad json line"

/-- Adding an entry to the group dict contributes exactly that entry to
the flattened sequence (as a multiset). -/
theorem flattenGroups_addEntry_perm (convs : List (Option String × List TurnData))
    (k : Option String) (e : TurnData) :
    List.Perm (flattenGroups (addEntry convs k e)) (e :: flattenGroups convs) := by
  induction convs with
  | nil => simp [addEntry, flattenGroups]
  | cons g gs ih =>
    obtain ⟨k0, l⟩ := g
    by_cases hk : k0 = k
    · simp only [addEntry, if_pos hk, flattenGroups, List.append_assoc]
      exact List.perm_middle
    · simp only [addEntry, if_neg hk, flattenGroups]
      exact ((ih.append_left l).trans List.perm_middle)

/-- Generalized invariant: folding response records into a starting group
dict appends their entries, as a multiset. -/
theorem groupConvs_perm_aux (lk : List (String × RoutingRecord)) (logs : List ResponseRecord) :
    ∀ convs : List (Option String × List TurnData),
      List.Perm
        (flattenGroups (logs.foldl (fun cs r => addEntry cs r.response_id (mkEntry lk r)) convs))
        (flattenGroups convs ++ logs.map (mkEntry lk)) := by
  induction logs with
  | nil => intro convs; simp
  | cons r rest ih =>
    intro convs
    simp only [List.foldl_cons, List.map_cons]
    have h1 := ih (addEntry convs r.response_id (mkEntry lk r))
    have h2 := (flattenGroups_addEntry_perm convs r.response_id (mkEntry lk r)).append_right
      (rest.map (mkEntry lk))
    exact h1.trans (h2.trans List.perm_middle.symm)

/-- The flattened processing order is a permutation of the response log,
each record paired with its routing lookup. -/
theorem groupConvs_perm (lk : List (String × RoutingRecord)) (logs : List ResponseRecord) :
    List.Perm (flattenGroups (groupConvs lk logs)) (logs.map (mkEntry lk)) := by
  simpa [flattenGroups] using groupConvs_perm_aux lk logs []

/-- A non-blank line that fails to parse aborts the whole load. -/
theorem parse_lines_error {α : Type} (parse : String → Except String α) :
    ∀ (lines : List String) (l : String), l ∈ lines → pyStrip l ≠ "" →
    (∃ m, parse l = .error m) → ∃ m2, parse_lines parse lines = .error m2 := by
  intro lines
  induction lines with
  | nil => intro l hl; cases hl
  | cons x rest ih =>
    intro l hl hblank hparse
    rcases List.mem_cons.mp hl with hx | hx
    · subst hx
      obtain ⟨m, hm⟩ := hparse
      refine ⟨m, ?_⟩
      simp [parse_lines, hblank, hm]
    · obtain ⟨m2, hm2⟩ := ih l hx hblank hparse
      by_cases hb : pyStrip x = ""
      · exact ⟨m2, by simp [parse_lines, hb, hm2]⟩
      · cases hp : parse x with
        | error m => exact ⟨m, by simp [parse_lines, hb, hp]⟩
        | ok v => exact ⟨m2, by simp [parse_lines, hb, hp, hm2]⟩

/-- Shifting `prevConvAt` across a cons when the head row carries the
conversation index the tail run started from. -/
theorem prevConvAt_cons_succ {c c2 : Int} {row : EvaluationResult}
    {rows : List EvaluationResult} {i : Nat} (hb : i ≤ rows.length)
    (hc : row.conversation_id = c2) :
    prevConvAt c (row :: rows) (i + 1) = prevConvAt c2 rows i := by
  cases i with
  | zero => simp [prevConvAt, hc]
  | succ j =>
    have hj : j < rows.length := by omega
    simp [prevConvAt, List.getElem?_cons_succ, List.getElem?_eq_getElem hj]

/-- Shifting `prevTurnAt` across a cons when the head row carries the
turn value the tail run started from. -/
theorem prevTurnAt_cons_succ {t : Option Nat} {t2 : Nat} {row : EvaluationResult}
    {rows : List EvaluationResult} {i : Nat} (hb : i ≤ rows.length)
    (ht : row.turn = t2) :
    prevTurnAt t (row :: rows) (i + 1) = prevTurnAt (some t2) rows i := by
  cases i with
  | zero => simp [prevTurnAt, ht]
  | succ j =>
    have hj : j < rows.length := by omega
    simp [prevTurnAt, List.getElem?_cons_succ, List.getElem?_eq_getElem hj]

/-- Full characterization of a successful emission loop: one row per
entry; every entry has its `previous_response_id` key and a resolved
routing record; each row is the `mkRowOk` of its entry; the conversation
index and turn number follow the reset/increment discipline relative to
the state before the entry. -/
theorem runLoop_master (gt : GroundTruth) (en : Bool) (oracle : JudgeOracle) :
    ∀ (es : List TurnData) (c : Int) (t : Option Nat) (rows : List EvaluationResult),
    runLoop gt en oracle c t es = .ok rows →
    rows.length = es.length ∧
    ∀ (i : Nat) (hi : i < es.length) (hi2 : i < rows.length),
      ∃ v rt,
        (es.get ⟨i, hi⟩).response.previous_response_id = some v ∧
        (es.get ⟨i, hi⟩).routing = some rt ∧
        rows.get ⟨i, hi2⟩ =
          mkRowOk gt en oracle (rows.get ⟨i, hi2⟩).conversation_id (rows.get ⟨i, hi2⟩).turn
            (es.get ⟨i, hi⟩).response rt ∧
        (v = "" →
          (rows.get ⟨i, hi2⟩).conversation_id = prevConvAt c rows i + 1 ∧
          (rows.get ⟨i, hi2⟩).turn = 1) ∧
        (v ≠ "" → ∃ pt, prevTurnAt t rows i = some pt ∧
          (rows.get ⟨i, hi2⟩).conversation_id = prevConvAt c rows i ∧
          (rows.get ⟨i, hi2⟩).turn = pt + 1) := by
  intro es
  induction es with
  | nil =>
    intro c t rows h
    simp [runLoop] at h
    refine ⟨by simp [← h], ?_⟩
    intro i hi
    exact absurd hi (by simp)
  | cons e es ih =>
    intro c t rows h
    cases hp : e.response.previous_response_id with
    | none => simp [runLoop, hp] at h
    | some v =>
      cases hs : stepState c t v with
      | error m => simp [runLoop, hp, hs] at h
      | ok ct =>
        obtain ⟨c2, t2⟩ := ct
        cases hrt : e.routing with
        | none => simp [runLoop, hp, hs, mkRow, hrt] at h
        | some rt =>
          cases hrec : runLoop gt en oracle c2 (some t2) es with
          | error m => simp [runLoop, hp, hs, mkRow, hrt, hrec] at h
          | ok rest =>
            have hrow : mkRowOk gt en oracle c2 t2 e.response rt :: rest = rows := by
              simpa [runLoop, hp, hs, mkRow, hrt, hrec] using h
            subst hrow
            obtain ⟨ihlen, ihspec⟩ := ih c2 (some t2) rest hrec
            refine ⟨by simp [ihlen], ?_⟩
            intro i hi hi2
            cases i with
            | zero =>
              refine ⟨v, rt, by simpa using hp, by simpa using hrt, by rfl, ?_, ?_⟩
              · intro hv
                subst hv
                have hct : c2 = c + 1 ∧ t2 = 1 := by
                  simpa [stepState] using hs.symm
                obtain ⟨hc2, ht2⟩ := hct
                subst hc2; subst ht2
                exact ⟨rfl, rfl⟩
              · intro hv
                cases ht : t with
                | none => simp [stepState, if_neg hv, ht] at hs
                | some pt =>
                  have hct : c2 = c ∧ t2 = pt + 1 := by
                    rw [ht] at hs
                    simpa [stepState, if_neg hv] using hs.symm
                  obtain ⟨hc2, ht2⟩ := hct
                  subst hc2; subst ht2
                  exact ⟨pt, by simp [prevTurnAt, ht], rfl, rfl⟩
            | succ j =>
              have hj1 : j < es.length := by simpa using hi
              have hj2 : j < rest.length := by simpa using hi2
              obtain ⟨v2, rt2, h1, h2, h3, h4, h5⟩ := ihspec j hj1 hj2
              have hconv : prevConvAt c (mkRowOk gt en oracle c2 t2 e.response rt :: rest)
                  (j + 1) = prevConvAt c2 rest j :=
                prevConvAt_cons_succ (Nat.le_of_lt hj2) rfl
              have hturn : prevTurnAt t (mkRowOk gt en oracle c2 t2 e.response rt :: rest)
                  (j + 1) = prevTurnAt (some t2) rest j :=
                prevTurnAt_cons_succ (Nat.le_of_lt hj2) rfl
              refine ⟨v2, rt2, by simpa using h1, by simpa using h2, by simpa using h3, ?_, ?_⟩
              · intro hv
                obtain ⟨hc', ht'⟩ := h4 hv
                constructor
                · simpa [hconv] using hc'
                · simpa using ht'
              · intro hv
                obtain ⟨pt, hpt, hc', ht'⟩ := h5 hv
                exact ⟨pt, by simpa [hturn] using hpt, by simpa [hconv] using hc',
                  by simpa using ht'⟩

/-- Reading the state before entry `i + 1` out of row `i`. -/
theorem prevConvAt_of_lt {c : Int} {rows : List EvaluationResult} {i : Nat}
    (h : i < rows.length) :
    prevConvAt c rows (i + 1) = (rows.get ⟨i, h⟩).conversation_id := by
  simp [prevConvAt, List.getElem?_eq_getElem h]

/-- Reading the turn state before entry `i + 1` out of row `i`. -/
theorem prevTurnAt_of_lt {t : Option Nat} {rows : List EvaluationResult} {i : Nat}
    (h : i < rows.length) :
    prevTurnAt t rows (i + 1) = some (rows.get ⟨i, h⟩).turn := by
  simp [prevTurnAt, List.getElem?_eq_getElem h]

/-- If any entry of the flattened sequence lacks the
`previous_response_id` key, the emission loop cannot return normally. -/
theorem runLoop_error_of_badPrev (gt : GroundTruth) (en : Bool) (oracle : JudgeOracle) :
    ∀ (es : List TurnData) (e : TurnData), e ∈ es →
    e.response.previous_response_id = none →
    ∀ c t, ∃ m, runLoop gt en oracle c t es = .error m := by
  intro es
  induction es with
  | nil => intro e he; cases he
  | cons e0 es ih =>
    intro e he hbad c t
    cases hp : e0.response.previous_response_id with
    | none => exact ⟨keyErrorPrev, by simp [runLoop, hp]⟩
    | some v =>
      have hne : e ≠ e0 := by
        intro hx
        rw [hx, hp] at hbad
        cases hbad
      have hmem : e ∈ es := by
        rcases List.mem_cons.mp he with hx | hx
        · exact absurd hx hne
        · exact hx
      cases hs : stepState c t v with
      | error m => exact ⟨m, by simp [runLoop, hp, hs]⟩
      | ok ct =>
        obtain ⟨c2, t2⟩ := ct
        cases hr : mkRow gt en oracle c2 t2 e0 with
        | error m => exact ⟨m, by simp [runLoop, hp, hs, hr]⟩
        | ok row =>
          obtain ⟨m, hm⟩ := ih e hmem hbad c2 (some t2)
          exact ⟨m, by simp [runLoop, hp, hs, hr, hm]⟩

/-- The response-id column of the emitted rows is exactly the (defaulted)
response-id column of the processed entries, in order. -/
theorem runLoop_map_response_id (gt : GroundTruth) (en : Bool) (oracle : JudgeOracle) :
    ∀ (es : List TurnData) (c : Int) (t : Option Nat) (rows : List EvaluationResult),
    runLoop gt en oracle c t es = .ok rows →
    rows.map EvaluationResult.response_id
      = es.map (fun e => e.response.response_id.getD "") := by
  intro es
  induction es with
  | nil =>
    intro c t rows h
    simp [runLoop] at h
    simp [← h]
  | cons e es ih =>
    intro c t rows h
    cases hp : e.response.previous_response_id with
    | none => simp [runLoop, hp] at h
    | some v =>
      cases hs : stepState c t v with
      | error m => simp [runLoop, hp, hs] at h
      | ok ct =>
        obtain ⟨c2, t2⟩ := ct
        cases hrt : e.routing with
        | none => simp [runLoop, hp, hs, mkRow, hrt] at h
        | some rt =>
          cases hrec : runLoop gt en oracle c2 (some t2) es with
          | error m => simp [runLoop, hp, hs, mkRow, hrt, hrec] at h
          | ok rest =>
            have hrow : mkRowOk gt en oracle c2 t2 e.response rt :: rest = rows := by
              simpa [runLoop, hp, hs, mkRow, hrt, hrec] using h
            subst hrow
            simp [ih c2 (some t2) rest hrec, mkRowOk]

/-- The second component of `judgeForRow` (the per-row error) does not
depend on the judge oracle. -/
theorem judgeForRow_snd_eq (en : Bool) (o1 o2 : JudgeOracle) (q r g : String) :
    (judgeForRow en o1 q r g).2 = (judgeForRow en o2 q r g).2 := by
  by_cases hc : r ≠ "" ∧ g ≠ "" <;> simp [judgeForRow, hc]

/-- Rows built from the same entry under different oracles agree outside
the judge fields. -/
theorem eraseJudge_mkRowOk (gt : GroundTruth) (en : Bool) (o1 o2 : JudgeOracle)
    (c : Int) (t : Nat) (resp : ResponseRecord) (rt : RoutingRecord) :
    eraseJudge (mkRowOk gt en o1 c t resp rt) = eraseJudge (mkRowOk gt en o2 c t resp rt) := by
  simp only [eraseJudge, mkRowOk]
  rw [judgeForRow_snd_eq en o1 o2]

/-- The emission loop behaves identically under different judge oracles,
up to the judge fields of the rows: same error or same number and content
of rows otherwise. -/
theorem runLoop_oracle_map_eq (gt : GroundTruth) (en : Bool) (o1 o2 : JudgeOracle) :
    ∀ (es : List TurnData) (c : Int) (t : Option Nat),
    (runLoop gt en o1 c t es).map (List.map eraseJudge)
      = (runLoop gt en o2 c t es).map (List.map eraseJudge) := by
  intro es
  induction es with
  | nil => intro c t; rfl
  | cons e es ih =>
    intro c t
    cases hp : e.response.previous_response_id with
    | none => simp [runLoop, hp]
    | some v =>
      cases hs : stepState c t v with
      | error m => simp [runLoop, hp, hs]
      | ok ct =>
        obtain ⟨c2, t2⟩ := ct
        cases hrt : e.routing with
        | none => simp [runLoop, hp, hs, mkRow, hrt]
        | some rt =>
          have ihx := ih c2 (some t2)
          cases h1 : runLoop gt en o1 c2 (some t2) es with
          | error m1 =>
            cases h2 : runLoop gt en o2 c2 (some t2) es with
            | error m2 =>
              rw [h1, h2] at ihx
              simp only [Except.map] at ihx
              simp [runLoop, hp, hs, mkRow, hrt, h1, h2, ihx]
            | ok r2 =>
              rw [h1, h2] at ihx
              simp [Except.map] at ihx
          | ok r1 =>
            cases h2 : runLoop gt en o2 c2 (some t2) es with
            | error m2 =>
              rw [h1, h2] at ihx
              simp [Except.map] at ihx
            | ok r2 =>
              rw [h1, h2] at ihx
              simp only [Except.map, Except.ok.injEq] at ihx
              simp only [runLoop, hp, hs, mkRow, hrt, h1, h2]
              simp [Except.map, ihx, eraseJudge_mkRowOk gt en o1 o2 c2 t2 e.response rt]

/-- Whole-pipeline version: `evaluate_logs` under two different judge
oracles agrees up to the judge fields. -/
theorem evaluate_logs_oracle_map_eq (routing_load : Except String (List RoutingRecord))
    (response_load : Except String (List ResponseRecord)) (gt : GroundTruth)
    (ids : List String) (en : Bool) (o1 o2 : JudgeOracle) :
    (evaluate_logs routing_load response_load gt ids en o1).map (Option.map (List.map eraseJudge))
      = (evaluate_logs routing_load response_load gt ids en o2).map
          (Option.map (List.map eraseJudge)) := by
  by_cases hid : ids.length = 0
  · simp [evaluate_logs, hid]
  · cases routing_load with
    | error m => simp [evaluate_logs, hid]
    | ok rl =>
      cases response_load with
      | error m => simp [evaluate_logs, hid]
      | ok logs =>
        cases hlk : build_routing_lookup rl with
        | error m => simp [evaluate_logs, hid, hlk]
        | ok lk =>
          have hx := runLoop_oracle_map_eq gt en o1 o2
            (flattenGroups (groupConvs lk logs)) (-1) none
          cases h1 : runLoop gt en o1 (-1) none (flattenGroups (groupConvs lk logs)) with
          | error m1 =>
            cases h2 : runLoop gt en o2 (-1) none (flattenGroups (groupConvs lk logs)) with
            | error m2 =>
              rw [h1, h2] at hx
              simp only [Except.map] at hx
              simp [evaluate_logs, hid, hlk, h1, h2, hx]
            | ok r2 =>
              rw [h1, h2] at hx
              simp [Except.map] at hx
          | ok r1 =>
            cases h2 : runLoop gt en o2 (-1) none (flattenGroups (groupConvs lk logs)) with
            | error m2 =>
              rw [h1, h2] at hx
              simp [Except.map] at hx
            | ok r2 =>
              rw [h1, h2] at hx
              simp only [Except.map, Except.ok.injEq] at hx
              simp only [evaluate_logs, hid, hlk, h1, h2]
              simp [Except.map, hx]

/-- Inversion of a normal (non-early-exit) run of `evaluate_logs`. -/
theorem evaluate_logs_ok_inv {rl : List RoutingRecord} {logs : List ResponseRecord}
    {gt : GroundTruth} {ids : List String} {en : Bool} {oracle : JudgeOracle}
    {rows : List EvaluationResult}
    (h : evaluate_logs (.ok rl) (.ok logs) gt ids en oracle = .ok (some rows)) :
    ids.length ≠ 0 ∧ ∃ lk, build_routing_lookup rl = .ok lk ∧
      runLoop gt en oracle (-1) none (flattenGroups (groupConvs lk logs)) = .ok rows := by
  by_cases hid : ids.length = 0
  · simp [evaluate_logs, hid] at h
  · refine ⟨hid, ?_⟩
    cases hlk : build_routing_lookup rl with
    | error m => simp [evaluate_logs, hid, hlk] at h
    | ok lk =>
      cases hrun : runLoop gt en oracle (-1) none (flattenGroups (groupConvs lk logs)) with
      | error m => simp [evaluate_logs, hid, hlk, hrun] at h
      | ok rows2 =>
        have : rows2 = rows := by simpa [evaluate_logs, hid, hlk, hrun] using h
        exact ⟨lk, rfl, by rw [hrun, this]⟩

/-- Inversion of a successful `processed_entries`. -/
theorem processed_entries_ok_inv {rl : List RoutingRecord} {logs : List ResponseRecord}
    {es : List TurnData} (h : processed_entries rl logs = .ok es) :
    ∃ lk, build_routing_lookup rl = .ok lk ∧ es = flattenGroups (groupConvs lk logs) := by
  cases hlk : build_routing_lookup rl with
  | error m => simp [processed_entries, hlk] at h
  | ok lk =>
    have : flattenGroups (groupConvs lk logs) = es := by
      simpa [processed_entries, hlk] using h
    exact ⟨lk, rfl, this.symm⟩

/-- A pointwise adjacent bound extends to any pair of indices. -/
theorem get_mono_of_adjacent {α : Type} (f : α → Int) (xs : List α)
    (hadj : ∀ i (h : i + 1 < xs.length),
      f (xs.get ⟨i, Nat.lt_of_succ_lt h⟩) ≤ f (xs.get ⟨i + 1, h⟩)) :
    ∀ i j (hij : i ≤ j) (hj : j < xs.length),
      f (xs.get ⟨i, Nat.lt_of_le_of_lt hij hj⟩) ≤ f (xs.get ⟨j, hj⟩) := by
  intro i j hij
  induction hij with
  | refl => intro hj; exact le_refl _
  | @step m hmn ih =>
    intro hj
    have hm : m < xs.length := Nat.lt_of_succ_lt hj
    exact le_trans (ih hm) (hadj m hj)

/-- Folding more records into a group dict never disturbs the first
element of the first group. -/
theorem foldl_addEntry_head (lk : List (String × RoutingRecord)) (e0 : TurnData) :
    ∀ (logs : List ResponseRecord) (k0 : Option String) (l0 : List TurnData)
      (gs : List (Option String × List TurnData)),
    ∃ k1 l1 gs1,
      logs.foldl (fun cs r => addEntry cs r.response_id (mkEntry lk r)) ((k0, e0 :: l0) :: gs)
        = (k1, e0 :: l1) :: gs1 := by
  intro logs
  induction logs with
  | nil => intro k0 l0 gs; exact ⟨k0, l0, gs, rfl⟩
  | cons r rest ih =>
    intro k0 l0 gs
    simp only [List.foldl_cons]
    by_cases hk : k0 = r.response_id
    · have hstep : addEntry ((k0, e0 :: l0) :: gs) r.response_id (mkEntry lk r)
          = (k0, e0 :: (l0 ++ [mkEntry lk r])) :: gs := by
        simp [addEntry, hk]
      rw [hstep]
      exact ih k0 (l0 ++ [mkEntry lk r]) gs
    · have hstep : addEntry ((k0, e0 :: l0) :: gs) r.response_id (mkEntry lk r)
          = (k0, e0 :: l0) :: addEntry gs r.response_id (mkEntry lk r) := by
        simp [addEntry, hk]
      rw [hstep]
      exact ih k0 l0 (addEntry gs r.response_id (mkEntry lk r))

/-- The first processed entry is the pairing of the first response
record. -/
theorem flattenGroups_groupConvs_cons (lk : List (String × RoutingRecord))
    (r : ResponseRecord) (rest : List ResponseRecord) :
    ∃ es2, flattenGroups (groupConvs lk (r :: rest)) = mkEntry lk r :: es2 := by
  unfold groupConvs
  simp only [List.foldl_cons]
  have h0 : addEntry [] r.response_id (mkEntry lk r) = [(r.response_id, [mkEntry lk r])] := rfl
  rw [h0]
  obtain ⟨k1, l1, gs1, hfold⟩ := foldl_addEntry_head lk (mkEntry lk r) rest r.response_id [] []
  rw [hfold]
  exact ⟨l1 ++ flattenGroups gs1, rfl⟩

/-- Characterization of the ground-truth fold: for a non-empty key, the
mapping holds the trimmed data of the last table row whose trimmed
question equals the key. -/
theorem load_ground_truth_foldl (q : String) (hq : q ≠ "") :
    ∀ (rows : List CsvRow) (init : GroundTruth),
      (rows.foldl gtInsertRow init) q =
        (match rows.reverse.find? (fun r => pyStrip r.question == q) with
         | some r => some ⟨pyStrip r.answers, pyStrip r.source_name⟩
         | none => init q) := by
  intro rows
  induction rows with
  | nil => intro init; simp
  | cons r rest ih =>
    intro init
    simp only [List.foldl_cons, List.reverse_cons]
    rw [ih (gtInsertRow init r), List.find?_append]
    cases hfind : rest.reverse.find? (fun r2 => pyStrip r2.question == q) with
    | some r2 => simp [Option.or]
    | none =>
      simp only [Option.or]
      by_cases hp : pyStrip r.question = q
      · have hq2 : pyStrip r.question ≠ "" := by rw [hp]; exact hq
        simp [List.find?, hp, gtInsertRow, hq2, hq]
      · have hbeq : (pyStrip r.question == q) = false := by
          simp [hp]
        by_cases hq2 : pyStrip r.question = ""
        · have hbq : ("" == q) = false := by
            rw [hq2] at hbeq
            exact hbeq
          simp [List.find?, gtInsertRow, hq2, hbq]
        · have : q ≠ pyStrip r.question := fun hx => hp hx.symm
          simp [List.find?, hbeq, gtInsertRow, hq2, this]

/-- The placeholder is returned by the judge client exactly when the
flag is disabled or the single network request fails (raises or yields a
body that is not valid JSON); a successful request always fills in the
usage counters. -/
theorem judge_with_llm_empty_iff (en : Bool) (oracle : JudgeOracle) (q ref gen : String) :
    judge_with_llm en oracle q ref gen = empty_judge_scores ↔
      (en = false ∨ oracle q ref gen = .throws ∨ oracle q ref gen = .invalidJSON) := by
  by_cases hen : en = false
  · simp [judge_with_llm, hen]
  · cases hout : oracle q ref gen with
    | throws => simp [judge_with_llm, hen, hout]
    | invalidJSON => simp [judge_with_llm, hen, hout]
    | ok c r i o => simp [judge_with_llm, hen, hout, empty_judge_scores]

/-- How `routing_correct` is computed inside one row. -/
theorem mkRowOk_routing_correct (gt : GroundTruth) (en : Bool) (oracle : JudgeOracle)
    (c : Int) (t : Nat) (resp : ResponseRecord) (rt : RoutingRecord) :
    ((mkRowOk gt en oracle c t resp rt).expected_sources = "" →
      (mkRowOk gt en oracle c t resp rt).routing_correct = none) ∧
    ((mkRowOk gt en oracle c t resp rt).expected_sources ≠ "" →
      (mkRowOk gt en oracle c t resp rt).routing_correct
        = some ((rt.selected_sources.getD []).contains
            (mkRowOk gt en oracle c t resp rt).expected_sources)) := by
  dsimp only [mkRowOk]
  constructor
  · intro hx
    simp [hx]
  · intro hx
    simp [hx]

/-- C1, counterexample: with the non-empty identifier list `["x"]` and a
single response-log entry whose `orchestrator_request_id` does not
resolve in the (empty) routing lookup, `evaluate_logs` does not emit one
`EvaluationResult` paired with a null routing record — it aborts with the
`AttributeError` of line 176 and emits nothing at all. -/
theorem c1_unresolved_routing_aborts :
    evaluate_logs (.ok []) (.ok [cxRespNull]) (load_ground_truth none) ["x"] false wOracle
      = .error attrErrorNoneGet ∧ [cxRespNull].length = 1 :=
  ⟨rfl, rfl⟩

/-- C1, amended: whenever a run of `evaluate_logs` returns normally, it
emits exactly one `EvaluationResult` per response-log entry (no
duplication, no drops), and in such a run every entry's
`orchestrator_request_id` in fact resolves in the routing lookup — an
unresolved key makes the run abort rather than yield a null-paired row. -/
theorem c1_one_result_per_entry {rl : List RoutingRecord} {logs : List ResponseRecord}
    {gt : GroundTruth} {ids : List String} {en : Bool} {oracle : JudgeOracle}
    {rows : List EvaluationResult} {lk : List (String × RoutingRecord)}
    (hlk : build_routing_lookup rl = .ok lk)
    (h : evaluate_logs (.ok rl) (.ok logs) gt ids en oracle = .ok (some rows)) :
    rows.length = logs.length ∧
    ∀ r ∈ logs, lookupRouting lk r.orchestrator_request_id ≠ none := by
  obtain ⟨hid, lk2, hlk2, hrun⟩ := evaluate_logs_ok_inv h
  rw [hlk] at hlk2
  injection hlk2 with hlk2
  subst hlk2
  obtain ⟨hlen, hspec⟩ := runLoop_master gt en oracle _ (-1) none rows hrun
  have hperm := groupConvs_perm lk logs
  constructor
  · rw [hlen, hperm.length_eq, List.length_map]
  · intro r hr
    have hmem : mkEntry lk r ∈ flattenGroups (groupConvs lk logs) :=
      hperm.mem_iff.mpr (List.mem_map_of_mem _ hr)
    obtain ⟨⟨i, hi⟩, hgi⟩ := List.mem_iff_get.mp hmem
    obtain ⟨v, rt, h1, h2, h3, h4, h5⟩ := hspec i hi (by rw [hlen]; exact hi)
    rw [hgi] at h2
    simp only [mkEntry] at h2
    simp [h2]

/-- C1, witness: in the two-turn witness scenario the run returns
normally, emits two rows for two entries, and the first record's routing
key resolves. -/
theorem c1_witness :
    [wRow1, wRow2].length = [wResp1, wResp2].length ∧
    lookupRouting [("r1", wRouting)] wResp1.orchestrator_request_id ≠ none := by
  have hlk : build_routing_lookup [wRouting] = .ok [("r1", wRouting)] := rfl
  have h : evaluate_logs (.ok [wRouting]) (.ok [wResp1, wResp2]) wGT ["resp1"] false wOracle
      = .ok (some [wRow1, wRow2]) := rfl
  obtain ⟨h1, h2⟩ := c1_one_result_per_entry hlk h
  exact ⟨h1, h2 wResp1 (by simp)⟩

/-- C2, counterexample: when the very first response-log entry already
has a non-empty `previous_response_id`, `evaluate_logs` does not emit a
row with an incremented turn — it aborts with the `UnboundLocalError` of
line 174 (`turn += 1` before any assignment). -/
theorem c2_first_entry_chain_aborts :
    evaluate_logs (.ok []) (.ok [cxRespChain]) (load_ground_truth none) ["x"] false wOracle
      = .error unboundLocalTurn :=
  rfl

/-- C2, amended: in every run of `evaluate_logs` that completes
normally, the turn number of each emitted row is 1 exactly at entries
whose `previous_response_id` value is falsy and is the previous row's
turn plus one otherwise, regardless of chain continuity; such a run
necessarily starts with a conversation boundary, so the first row's turn
is 1 (a first entry with a non-empty `previous_response_id` instead
aborts the run). -/
theorem c2_turn_discipline {rl : List RoutingRecord} {logs : List ResponseRecord}
    {gt : GroundTruth} {ids : List String} {en : Bool} {oracle : JudgeOracle}
    {rows : List EvaluationResult} {es : List TurnData}
    (h : evaluate_logs (.ok rl) (.ok logs) gt ids en oracle = .ok (some rows))
    (hes : processed_entries rl logs = .ok es) :
    rows.length = es.length ∧
    (∀ (i : Nat) (hi : i < es.length) (hi2 : i < rows.length) (v : String),
      (es.get ⟨i, hi⟩).response.previous_response_id = some v → v = "" →
      (rows.get ⟨i, hi2⟩).turn = 1) ∧
    (∀ (i : Nat) (hi : i + 1 < es.length) (hi2 : i + 1 < rows.length) (v : String),
      (es.get ⟨i + 1, hi⟩).response.previous_response_id = some v → v ≠ "" →
      (rows.get ⟨i + 1, hi2⟩).turn = (rows.get ⟨i, Nat.lt_of_succ_lt hi2⟩).turn + 1) ∧
    (∀ (h0 : 0 < rows.length), (rows.get ⟨0, h0⟩).turn = 1) := by
  obtain ⟨hid, lk, hlk, hrun⟩ := evaluate_logs_ok_inv h
  obtain ⟨lk2, hlk2, hesval⟩ := processed_entries_ok_inv hes
  rw [hlk] at hlk2
  injection hlk2 with hlk2
  subst hlk2
  rw [← hesval] at hrun
  obtain ⟨hlen, hspec⟩ := runLoop_master gt en oracle es (-1) none rows hrun
  refine ⟨hlen, ?_, ?_, ?_⟩
  · intro i hi hi2 v hv hv0
    obtain ⟨v2, rt, h1, h2, h3, h4, h5⟩ := hspec i hi hi2
    rw [hv] at h1
    injection h1 with h1
    subst h1
    exact (h4 hv0).2
  · intro i hi hi2 v hv hv0
    obtain ⟨v2, rt, h1, h2, h3, h4, h5⟩ := hspec (i + 1) hi hi2
    rw [hv] at h1
    injection h1 with h1
    subst h1
    obtain ⟨pt, hpt, hc', ht'⟩ := h5 hv0
    rw [prevTurnAt_of_lt (Nat.lt_of_succ_lt hi2)] at hpt
    injection hpt with hpt
    rw [ht', ← hpt]
  · intro h0
    have hi : 0 < es.length := by rw [← hlen]; exact h0
    obtain ⟨v, rt, h1, h2, h3, h4, h5⟩ := hspec 0 hi h0
    by_cases hv : v = ""
    · exact (h4 hv).2
    · obtain ⟨pt, hpt, _, _⟩ := h5 hv
      cases hpt

/-- C2, witness: applying the turn discipline to the two-turn witness
run gives turn 1 for the opening row and turn 2 for the chained row. -/
theorem c2_witness : wRow1.turn = 1 ∧ wRow2.turn = 2 := by
  have h : evaluate_logs (.ok [wRouting]) (.ok [wResp1, wResp2]) wGT ["resp1"] false wOracle
      = .ok (some [wRow1, wRow2]) := rfl
  have hes : processed_entries [wRouting] [wResp1, wResp2] = .ok [wEntry1, wEntry2] := rfl
  obtain ⟨hlen, hreset, hinc, hfirst⟩ := c2_turn_discipline h hes
  refine ⟨hfirst (by simp), ?_⟩
  exact hinc 0 (by simp) (by simp) "resp1" rfl (by simp)

/-- C3, counterexample: two response-log entries sharing `response_id`
"a" produce two emitted rows with equal `response_id`, violating the
claimed uniqueness invariant. -/
theorem c3_duplicate_response_id :
    evaluate_logs (.ok [wRouting]) (.ok [cxDup1, cxDup2]) (load_ground_truth none) ["x"]
        false wOracle = .ok (some [cxDupRow1, cxDupRow2]) ∧
    cxDupRow1.response_id = cxDupRow2.response_id :=
  ⟨rfl, rfl⟩

/-- C3, amended: across the emitted sequence of a normally-completing
run, `conversation_id` starts at 0, is monotonically non-decreasing, and
is incremented exactly at entries whose `previous_response_id` value is
falsy; `response_id` uniqueness holds only under the extra assumption
that the response log carries pairwise-distinct (defaulted)
`response_id` values. -/
theorem c3_conversation_discipline {rl : List RoutingRecord} {logs : List ResponseRecord}
    {gt : GroundTruth} {ids : List String} {en : Bool} {oracle : JudgeOracle}
    {rows : List EvaluationResult} {es : List TurnData}
    (h : evaluate_logs (.ok rl) (.ok logs) gt ids en oracle = .ok (some rows))
    (hes : processed_entries rl logs = .ok es) :
    (∀ (h0 : 0 < rows.length), (rows.get ⟨0, h0⟩).conversation_id = 0) ∧
    (∀ i j (hij : i ≤ j) (hj : j < rows.length),
      (rows.get ⟨i, Nat.lt_of_le_of_lt hij hj⟩).conversation_id
        ≤ (rows.get ⟨j, hj⟩).conversation_id) ∧
    (∀ (i : Nat) (hi : i + 1 < es.length) (hi2 : i + 1 < rows.length) (v : String),
      (es.get ⟨i + 1, hi⟩).response.previous_response_id = some v →
      (rows.get ⟨i + 1, hi2⟩).conversation_id
        = (rows.get ⟨i, Nat.lt_of_succ_lt hi2⟩).conversation_id
            + (if v = "" then 1 else 0)) ∧
    ((logs.map (fun r => r.response_id.getD "")).Nodup →
      (rows.map EvaluationResult.response_id).Nodup) := by
  obtain ⟨hid, lk, hlk, hrun⟩ := evaluate_logs_ok_inv h
  obtain ⟨lk2, hlk2, hesval⟩ := processed_entries_ok_inv hes
  rw [hlk] at hlk2
  injection hlk2 with hlk2
  subst hlk2
  rw [← hesval] at hrun
  obtain ⟨hlen, hspec⟩ := runLoop_master gt en oracle es (-1) none rows hrun
  have hstep : ∀ (i : Nat) (hi : i + 1 < es.length) (hi2 : i + 1 < rows.length) (v : String),
      (es.get ⟨i + 1, hi⟩).response.previous_response_id = some v →
      (rows.get ⟨i + 1, hi2⟩).conversation_id
        = (rows.get ⟨i, Nat.lt_of_succ_lt hi2⟩).conversation_id
            + (if v = "" then 1 else 0) := by
    intro i hi hi2 v hv
    obtain ⟨v2, rt, h1, h2, h3, h4, h5⟩ := hspec (i + 1) hi hi2
    rw [hv] at h1
    injection h1 with h1
    subst h1
    by_cases hv0 : v = ""
    · obtain ⟨hc', _⟩ := h4 hv0
      rw [prevConvAt_of_lt (Nat.lt_of_succ_lt hi2)] at hc'
      rw [hc', if_pos hv0]
    · obtain ⟨pt, hpt, hc', _⟩ := h5 hv0
      rw [prevConvAt_of_lt (Nat.lt_of_succ_lt hi2)] at hc'
      rw [hc', if_neg hv0]
      simp
  refine ⟨?_, ?_, hstep, ?_⟩
  · intro h0
    have hi : 0 < es.length := by rw [← hlen]; exact h0
    obtain ⟨v, rt, h1, h2, h3, h4, h5⟩ := hspec 0 hi h0
    by_cases hv : v = ""
    · have := (h4 hv).1
      simpa [prevConvAt] using this
    · obtain ⟨pt, hpt, _, _⟩ := h5 hv
      cases hpt
  · apply get_mono_of_adjacent (fun r => r.conversation_id) rows
    intro i hadj
    have hi : i + 1 < es.length := by rw [← hlen]; exact hadj
    obtain ⟨v, rt, h1, h2, h3, h4, h5⟩ := hspec (i + 1) hi hadj
    by_cases hv : v = ""
    · have hc' := (h4 hv).1
      rw [prevConvAt_of_lt (Nat.lt_of_succ_lt hadj)] at hc'
      rw [hc']
      omega
    · obtain ⟨pt, hpt, hc', _⟩ := h5 hv
      rw [prevConvAt_of_lt (Nat.lt_of_succ_lt hadj)] at hc'
      rw [hc']
  · intro hnodup
    have hmap := runLoop_map_response_id gt en oracle es (-1) none rows hrun
    have hperm : List.Perm
        (es.map (fun e => e.response.response_id.getD ""))
        (logs.map (fun r => r.response_id.getD "")) := by
      have hx := (groupConvs_perm lk logs).map (fun e => e.response.response_id.getD "")
      rw [← hesval] at hx
      simpa [List.map_map, Function.comp, mkEntry] using hx
    rw [hmap]
    exact hperm.nodup_iff.mpr hnodup

/-- C3, witness: in the two-turn witness run the opening conversation id
is 0, it does not decrease into the second row, the chained second entry
leaves it unchanged, and the emitted response ids are unique. -/
theorem c3_witness :
    wRow1.conversation_id = 0 ∧
    wRow1.conversation_id ≤ wRow2.conversation_id ∧
    wRow2.conversation_id = wRow1.conversation_id + 0 ∧
    ([wRow1, wRow2].map EvaluationResult.response_id).Nodup := by
  have h : evaluate_logs (.ok [wRouting]) (.ok [wResp1, wResp2]) wGT ["resp1"] false wOracle
      = .ok (some [wRow1, wRow2]) := rfl
  have hes : processed_entries [wRouting] [wResp1, wResp2] = .ok [wEntry1, wEntry2] := rfl
  obtain ⟨ha, hb, hc, hd⟩ := c3_conversation_discipline h hes
  refine ⟨ha (by simp), hb 0 1 (by omega) (by simp), ?_, hd (by simp [wResp1, wResp2])⟩
  have := hc 0 (by simp) (by simp) "resp1" rfl
  simpa using this

/-- C4: in every normally-completing run, each emitted row has
`routing_correct = none` exactly when its `expected_sources` is empty,
and otherwise `routing_correct` is true if and only if the expected
source is a member of the routing record's `selected_sources`. -/
theorem c4_routing_correct {rl : List RoutingRecord} {logs : List ResponseRecord}
    {gt : GroundTruth} {ids : List String} {en : Bool} {oracle : JudgeOracle}
    {rows : List EvaluationResult} {es : List TurnData}
    (h : evaluate_logs (.ok rl) (.ok logs) gt ids en oracle = .ok (some rows))
    (hes : processed_entries rl logs = .ok es) :
    ∀ (i : Nat) (hi : i < es.length) (hi2 : i < rows.length),
      ∃ rt, (es.get ⟨i, hi⟩).routing = some rt ∧
        ((rows.get ⟨i, hi2⟩).expected_sources = "" →
          (rows.get ⟨i, hi2⟩).routing_correct = none) ∧
        ((rows.get ⟨i, hi2⟩).expected_sources ≠ "" →
          (rows.get ⟨i, hi2⟩).routing_correct
            = some ((rt.selected_sources.getD []).contains
                (rows.get ⟨i, hi2⟩).expected_sources)) := by
  obtain ⟨hid, lk, hlk, hrun⟩ := evaluate_logs_ok_inv h
  obtain ⟨lk2, hlk2, hesval⟩ := processed_entries_ok_inv hes
  rw [hlk] at hlk2
  injection hlk2 with hlk2
  subst hlk2
  rw [← hesval] at hrun
  obtain ⟨hlen, hspec⟩ := runLoop_master gt en oracle es (-1) none rows hrun
  intro i hi hi2
  obtain ⟨v, rt, h1, h2, h3, h4, h5⟩ := hspec i hi hi2
  refine ⟨rt, h2, ?_, ?_⟩
  · intro hx
    rw [h3]
    rw [h3] at hx
    exact (mkRowOk_routing_correct gt en oracle _ _ _ rt).1 hx
  · intro hx
    rw [h3]
    rw [h3] at hx
    exact (mkRowOk_routing_correct gt en oracle _ _ _ rt).2 hx

/-- C4, witness: in the witness run the expected source "docA" is
non-empty and is among the selected sources, so `routing_correct` is
`some true`. -/
theorem c4_witness : wRow1.routing_correct = some true := by
  have h : evaluate_logs (.ok [wRouting]) (.ok [wResp1, wResp2]) wGT ["resp1"] false wOracle
      = .ok (some [wRow1, wRow2]) := rfl
  have hes : processed_entries [wRouting] [wResp1, wResp2] = .ok [wEntry1, wEntry2] := rfl
  obtain ⟨rt, hrt, hempty, hnon⟩ := c4_routing_correct h hes 0 (by simp) (by simp)
  have hrt2 : wRouting = rt := by
    have : (wEntry1.routing = some rt) := hrt
    simpa [wEntry1] using this
  subst hrt2
  exact hnon (by simp [wRow1])

/-- C5: a row's judge scores are the all-absent placeholder exactly when
the judge flag is disabled, or the reference or generated answer is
empty, or the one judge request throws or returns invalid JSON; the row
error is the fixed "No ground truth available" message exactly when the
reference answer is empty; and judge-call outcomes never change which
rows are emitted or any non-judge field (failures are absorbed per row,
the batch continues). -/
theorem c5_judge_placeholder :
    (∀ (en : Bool) (oracle : JudgeOracle) (q ref gen : String),
      judge_with_llm en oracle q ref gen = empty_judge_scores ↔
        (en = false ∨ oracle q ref gen = .throws ∨ oracle q ref gen = .invalidJSON)) ∧
    (∀ (en : Bool) (oracle : JudgeOracle) (q ref gen : String),
      ((judgeForRow en oracle q ref gen).1 = empty_judge_scores ↔
        (ref = "" ∨ gen = "" ∨ en = false ∨
          oracle q ref gen = .throws ∨ oracle q ref gen = .invalidJSON)) ∧
      ((judgeForRow en oracle q ref gen).2 = some "No ground truth available" ↔ ref = "")) ∧
    (∀ (routing_load : Except String (List RoutingRecord))
       (response_load : Except String (List ResponseRecord))
       (gt : GroundTruth) (ids : List String) (en : Bool) (o1 o2 : JudgeOracle),
      (evaluate_logs routing_load response_load gt ids en o1).map
          (Option.map (List.map eraseJudge))
        = (evaluate_logs routing_load response_load gt ids en o2).map
            (Option.map (List.map eraseJudge))) := by
  refine ⟨judge_with_llm_empty_iff, ?_, evaluate_logs_oracle_map_eq⟩
  intro en oracle q ref gen
  by_cases href : ref = ""
  · simp [judgeForRow, href]
  · by_cases hgen : gen = ""
    · simp [judgeForRow, href, hgen]
    · constructor
      · simp only [judgeForRow, if_pos (And.intro href hgen)]
        rw [judge_with_llm_empty_iff]
        simp [href, hgen]
      · simp [judgeForRow, href, hgen]

/-- C6: a missing log file loads as an empty sequence rather than an
error; a single non-blank line that fails to parse aborts the whole load;
and a load failure propagates uncaught through `evaluate_logs` and
`eval_om` to the job dispatcher, which reports a failed job carrying the
exception message as the error string. -/
theorem c6_load_fail_fast {α : Type} (parse0 : String → Except String α) :
    (load_jsonl parse0 none = .ok []) ∧
    (∀ (parse : String → Except String ResponseRecord) (lines : List String) (l : String),
      l ∈ lines → pyStrip l ≠ "" → (∃ m, parse l = .error m) →
      ∃ m2, load_jsonl parse (some lines) = .error m2) ∧
    (∀ (ids : List String) (gtf : Option (List CsvRow)) (rl : List RoutingRecord)
       (response_load : Except String (List ResponseRecord)) (en : Bool)
       (oracle : JudgeOracle) (today m : String),
      ids.length ≠ 0 → response_load = .error m →
      run_eval_job today (eval_om ids gtf (.ok rl) response_load en oracle)
        = ⟨"failed", none, 0, some m⟩) := by
  refine ⟨rfl, ?_, ?_⟩
  · intro parse lines l hl hbl hp
    exact parse_lines_error parse lines l hl hbl hp
  · intro ids gtf rl response_load en oracle today m hid hload
    subst hload
    simp [run_eval_job, eval_om, evaluate_logs, hid]

/-- C6, witness: the missing-file case, a concrete malformed line
aborting the load, and the failed-job payload carrying the message. -/
theorem c6_witness :
    load_jsonl badParse none = .ok [] ∧
    run_eval_job "2026-10-12"
        (eval_om ["i"] none (.ok []) (load_jsonl badParse (some ["not json"])) false wOracle)
      = ⟨"failed", none, 0, some "bad json line"⟩ := by
  obtain ⟨h1, h2, h3⟩ := c6_load_fail_fast badParse
  refine ⟨h1, ?_⟩
  exact h3 ["i"] none [] (load_jsonl badParse (some ["not json"])) false wOracle
    "2026-10-12" "bad json line" (by simp) rfl

/-- C7: with an empty response-identifier list the pipeline
short-circuits: `evaluate_logs` returns the early `None` (no results),
no report file is written, `eval_om` likewise returns early, and the job
dispatcher still reports success with zero items — an informational
non-error. -/
theorem c7_empty_ids_short_circuit (routing_load : Except String (List RoutingRecord))
    (response_load : Except String (List ResponseRecord)) (gt : GroundTruth)
    (gtf : Option (List CsvRow)) (en : Bool) (oracle : JudgeOracle) (today : String) :
    evaluate_logs routing_load response_load gt [] en oracle = .ok none ∧
    writes_report (evaluate_logs routing_load response_load gt [] en oracle) = false ∧
    eval_om [] gtf routing_load response_load en oracle = .ok none ∧
    (run_eval_job today (eval_om [] gtf routing_load response_load en oracle)).status
      = "success" ∧
    (run_eval_job today (eval_om [] gtf routing_load response_load en oracle)).total_items
      = 0 :=
  ⟨rfl, rfl, rfl, rfl, rfl⟩

/-- C8: `evaluate_logs` does return its in-memory result sequence, but
`eval_om` discards it (its final statement is a bare call, not a
`return`), so the dispatcher receives `None` and computes
`total_items = 0` even for a run that emitted rows. -/
theorem c8_eval_om_discards_results :
    evaluate_logs (.ok [wRouting]) (.ok [wResp1, wResp2]) (load_ground_truth (some [wCsvRow]))
        ["resp1"] false wOracle = .ok (some [wRow1, wRow2]) ∧
    eval_om ["resp1"] (some [wCsvRow]) (.ok [wRouting]) (.ok [wResp1, wResp2]) false wOracle
      = .ok none ∧
    (run_eval_job "2026-10-12"
        (eval_om ["resp1"] (some [wCsvRow]) (.ok [wRouting]) (.ok [wResp1, wResp2])
          false wOracle)).total_items = 0 :=
  ⟨rfl, rfl, rfl⟩

/-- C9: `load_ground_truth` maps a missing file to the empty mapping,
and for an existing file maps each non-empty trimmed question to the
trimmed answer and trimmed source of the last table row whose trimmed
question matches (last row wins). -/
theorem c9_ground_truth_lookup :
    (∀ q, load_ground_truth none q = none) ∧
    (∀ (rows : List CsvRow) (q : String), q ≠ "" →
      load_ground_truth (some rows) q =
        (match rows.reverse.find? (fun r => pyStrip r.question == q) with
         | some r => some ⟨pyStrip r.answers, pyStrip r.source_name⟩
         | none => none)) := by
  constructor
  · intro q
    rfl
  · intro rows q hq
    have hx := load_ground_truth_foldl q hq rows (fun _ => none)
    simpa [load_ground_truth] using hx

/-- C9, witness: missing file gives the empty mapping; with two rows
whose trimmed questions collide, the later row's trimmed answer and
source win. -/
theorem c9_witness :
    load_ground_truth none "Q1" = none ∧
    load_ground_truth (some [⟨" Q1 ", "A0", "s0"⟩, ⟨"Q1", " A1 ", " docA "⟩]) "Q1"
      = some ⟨"A1", "docA"⟩ := by
  obtain ⟨h1, h2⟩ := c9_ground_truth_lookup
  refine ⟨h1 "Q1", ?_⟩
  have hx := h2 [⟨" Q1 ", "A0", "s0"⟩, ⟨"Q1", " A1 ", " docA "⟩] "Q1" (by decide)
  exact hx

/-- C10: `previous_response_id` is read by direct key indexing, so a
response record lacking that key makes the whole run abort —
`evaluate_logs` can only return normally when every response record
carries the key — and when such a record is the first one processed the
abort is precisely the `KeyError` for `previous_response_id`. -/
theorem c10_missing_prev_key_aborts :
    (∀ (rl : List RoutingRecord) (logs : List ResponseRecord) (gt : GroundTruth)
       (ids : List String) (en : Bool) (oracle : JudgeOracle) (r : ResponseRecord),
      ids.length ≠ 0 → r ∈ logs → r.previous_response_id = none →
      ∃ m, evaluate_logs (.ok rl) (.ok logs) gt ids en oracle = .error m) ∧
    (∀ (rl : List RoutingRecord) (lk : List (String × RoutingRecord))
       (rest : List ResponseRecord) (gt : GroundTruth) (ids : List String) (en : Bool)
       (oracle : JudgeOracle) (r : ResponseRecord),
      ids.length ≠ 0 → build_routing_lookup rl = .ok lk → r.previous_response_id = none →
      evaluate_logs (.ok rl) (.ok (r :: rest)) gt ids en oracle = .error keyErrorPrev) := by
  constructor
  · intro rl logs gt ids en oracle r hid hr hkey
    cases hlk : build_routing_lookup rl with
    | error m => exact ⟨m, by simp [evaluate_logs, hid, hlk]⟩
    | ok lk =>
      have hmem : mkEntry lk r ∈ flattenGroups (groupConvs lk logs) :=
        (groupConvs_perm lk logs).mem_iff.mpr (List.mem_map_of_mem _ hr)
      obtain ⟨m, hm⟩ := runLoop_error_of_badPrev gt en oracle
        (flattenGroups (groupConvs lk logs)) (mkEntry lk r) hmem hkey (-1) none
      exact ⟨m, by simp [evaluate_logs, hid, hlk, hm]⟩
  · intro rl lk rest gt ids en oracle r hid hlk hkey
    obtain ⟨es2, hflat⟩ := flattenGroups_groupConvs_cons lk r rest
    have hrun : runLoop gt en oracle (-1) none (flattenGroups (groupConvs lk (r :: rest)))
        = .error keyErrorPrev := by
      rw [hflat]
      simp [runLoop, mkEntry, hkey]
    simp [evaluate_logs, hid, hlk, hrun]

/-- C10, witness: a response record with no `previous_response_id` key
placed first in the log aborts the run with the key error. -/
theorem c10_witness :
    evaluate_logs (.ok [wRouting]) (.ok (cxRespNoKey :: [wResp1])) wGT ["x"] false wOracle
      = .error keyErrorPrev :=
  c10_missing_prev_key_aborts.2 [wRouting] [("r1", wRouting)] [wResp1] wGT ["x"] false
    wOracle cxRespNoKey (by simp) rfl rfl

end EvalOM
